import Mathlib

/-!
Shallow embedding of `src/mr_procedure.js` (MR Procedure map logic).

The file has two halves, mirroring the source:

* the ETA engine: the static route catalog (`routes`), the leg-time matrix
  (`timeMatrix` / `matrixLookup` / `getLegTime`), clock formatting
  (`minutesToHHMM`), traversal resolution (`buildTraversalSequence`) and the
  schedule computation (`calculateETAs`);
* the selection/highlight state machine: the mutable variables
  `currentRoute`, `currentPointIndex`, `activePointId`, `pointsVisible`
  become a `St` record, the DOM `selected` class marks become the
  `domSelected` field (the set of hotspot ids carrying the class), and each
  event handler becomes a function `St → St`.

JS strings are Lean `String`s; JS numbers in this program are non-negative
integers, embedded as `Nat` (the only numeric inputs are minute counts and
list indices, and `Math.floor(n/60)` / `n % 60` on non-negative numbers are
`Nat` division and modulo).  `Number(x) || 0` on the time components is
modelled for digit strings (their decimal value) and for strings containing
a non-digit (NaN, hence 0); exotic JS numeric literals (signs, decimals,
hex) are outside the behaviours exercised here.  DOM-only effects (colors,
opacity, z-index, panel text, aria attributes) have no state read back by
the logic and are not modelled; the `selected` class is modelled because
`highlightPoint` reads and rewrites it through `activePointId`.
-/

namespace MrProcedure

/-! ## Data model: checkpoints, routes, and the fixed catalog -/

structure Point where
  id : String
  title : String
  objective : String
  bullets : List String
deriving DecidableEq, Repr

structure Route where
  id : String
  name : String
  color : String
  points : List Point
deriving DecidableEq, Repr

/-- `routes[0]` of the source: Route Alpha. -/
def routeA : Route :=
  { id := "routeA", name := "Route Alpha", color := "#06b6d4",
    points :=
      [ { id := "P", title := "Checkpoint P",
          objective := "Initial departure and perimeter securing.",
          bullets := ["Conduct radar and visual sweep.", "Verify course alignment.", "Next point → Q"] },
        { id := "Q", title := "Checkpoint Q",
          objective := "Observation and tower verification.",
          bullets := ["Take tower bearing and distance.", "Report position fix.", "Next point → R"] },
        { id := "R", title := "Checkpoint R",
          objective := "Resupply and comms verification.",
          bullets := ["Reconfirm comms window.", "Verify resupply readiness.", "Next point → S"] },
        { id := "S", title := "Checkpoint S",
          objective := "Traffic corridor clearance.",
          bullets := ["Coordinate safe passage.", "Log traffic movement.", "Next point → T"] },
        { id := "T", title := "Checkpoint T",
          objective := "High-point timing and mast observation.",
          bullets := ["Take timing references.", "Confirm mast signals.", "Next point → U"] },
        { id := "U", title := "Checkpoint U",
          objective := "Outer perimeter scan.",
          bullets := ["Record sector sweep.", "Validate safe-distance limits.", "Next point → S/P"] },
        { id := "S/P", title := "Checkpoint S/P",
          objective := "Final holding & route termination.",
          bullets := ["Confirm return readiness.", "Record sortie completion.", "Next point → END"] } ] }

/-- `routes[1]` of the source: Route Bravo. -/
def routeB : Route :=
  { id := "routeB", name := "Route Bravo", color := "#7c3aed",
    points :=
      [ { id := "S/P", title := "Checkpoint S/P",
          objective := "Start point for Bravo route.",
          bullets := ["Verify initial briefing.", "Log starting timestamp.", "Next point → P"] },
        { id := "P", title := "Checkpoint P",
          objective := "Rendezvous alignment.",
          bullets := ["Confirm joining instructions.", "Match timing with Alpha unit if applicable.", "Next point → R"] },
        { id := "R", title := "Checkpoint R",
          objective := "Communications and logistics check.",
          bullets := ["Validate resupply corridor.", "Check generator/aux systems.", "Next point → U"] },
        { id := "U", title := "Checkpoint U",
          objective := "Outer ring observation.",
          bullets := ["Perform perimeter sweep.", "Log environmental conditions.", "Next point → T"] },
        { id := "T", title := "Checkpoint T",
          objective := "High tower monitor checkpoint.",
          bullets := ["Record timing references.", "Monitor mast signatures.", "Next point → S"] },
        { id := "S", title := "Checkpoint S",
          objective := "Traffic corridor coordination.",
          bullets := ["Clear corridor for movement.", "Coordinate with control tower.", "Next point → Q"] },
        { id := "Q", title := "Checkpoint Q",
          objective := "Final verification before termination.",
          bullets := ["Fix final position.", "Log sortie closure.", "Next point → END"] } ] }

/-- The fixed route catalog `const routes = [...]`. -/
def routes : List Route := [routeA, routeB]

/-! ## LegGraph: the time matrix and `getLegTime` -/

/-- The JS object `timeMatrix`, as an association list keyed first by the
`from` id and then by the `to` id (the `"S/P"` row is present but empty,
exactly as in the source). -/
def timeMatrix : List (String × List (String × Nat)) :=
  [ ("VOCC", [("Q", 14), ("P", 12), ("S/P", 20)]),
    ("P",    [("Q", 14), ("R", 9)]),
    ("Q",    [("R", 12), ("S/P", 10)]),
    ("R",    [("S", 11), ("U", 13)]),
    ("S",    [("T", 9)]),
    ("T",    [("U", 15)]),
    ("U",    [("S/P", 8)]),
    ("S/P",  []) ]

/-- `timeMatrix[from] && typeof timeMatrix[from][to] === "number"`:
the directed entry `a → b`, when it exists. -/
def matrixLookup (a b : String) : Option Nat :=
  match timeMatrix.find? (fun row => row.1 == a) with
  | some row => (row.2.find? (fun cell => cell.1 == b)).map (fun cell => cell.2)
  | none => none

/-- `getLegTime(from, to)`: 0 on a falsy argument (the empty string), else
the directed entry, else the reverse entry, else 0. -/
def getLegTime (a b : String) : Nat :=
  if a = "" ∨ b = "" then 0
  else
    match matrixLookup a b with
    | some v => v
    | none => (matrixLookup b a).getD 0

/-! ## Clock formatting and start-time parsing -/

/-- JS `String.prototype.padStart(2, "0")`. -/
def padStart2 (s : String) : String :=
  if 2 ≤ s.length then s else String.mk (List.replicate (2 - s.length) '0') ++ s

/-- `minutesToHHMM`: `Math.floor(n/60)` and `n % 60`, each zero-padded to
two digits, joined by a colon. -/
def minutesToHHMM (totalMinutes : Nat) : String :=
  padStart2 (Nat.repr (totalMinutes / 60)) ++ ":" ++ padStart2 (Nat.repr (totalMinutes % 60))

/-- Accumulator for `splitColon`, walking the character list. -/
def splitColonAux : List Char → List Char → List String
  | [], acc => [String.mk acc.reverse]
  | c :: cs, acc =>
    if c = ':' then String.mk acc.reverse :: splitColonAux cs []
    else splitColonAux cs (c :: acc)

/-- JS `str.split(":")` (always at least one piece; `""` splits to `[""]`). -/
def splitColon (s : String) : List String :=
  splitColonAux s.data []

/-- `Number(x) || 0` applied to an optional component string: a missing
component (`undefined`) or a component containing a non-digit gives 0; a
digit string gives its decimal value. -/
def numOr0 : Option String → Nat
  | none => 0
  | some s =>
    if s.data.all (fun c => c.isDigit) then
      s.data.foldl (fun acc c => acc * 10 + (c.toNat - 48)) 0
    else 0

/-- The start-time parse of `calculateETAs`:
`const [hStr, mStr] = startTimeStr.split(":")` followed by
`(Number(hStr) || 0) * 60 + (Number(mStr) || 0)`. -/
def parseStartMinutes (s : String) : Nat :=
  let parts := splitColon s
  numOr0 parts[0]? * 60 + numOr0 parts[1]?

/-! ## TraversalResolver -/

/-- First index at or after `i` whose element satisfies `pred` — the shape
of the JS `indexOf` / first-reachable `for` loops. -/
def scanIdxAux {α : Type} (pred : α → Bool) : List α → Nat → Option Nat
  | [], _ => none
  | q :: qs, i => if pred q then some i else scanIdxAux pred qs (i + 1)

/-- JS `Array.prototype.findIndex` / `indexOf` (as an `Option Nat` instead
of the `-1` sentinel). -/
def jsFindIndex {α : Type} (pred : α → Bool) (l : List α) : Option Nat :=
  scanIdxAux pred l 0

/-- `buildTraversalSequence(startPoint)` over an explicit route (the source
reads the module variable `currentRoute`).  The two push-loops copying
`routePts[i..]` are `List.drop i`; the final `routePts.slice()` is the whole
list. -/
def buildTraversalSequence (route : Route) (startPoint : String) : List String :=
  let routePts := route.points.map Point.id
  match jsFindIndex (fun q => q == startPoint) routePts with
  | some i => routePts.drop i
  | none =>
    match jsFindIndex (fun q => decide (0 < getLegTime startPoint q)) routePts with
    | some i => routePts.drop i
    | none => routePts

/-! ## ETACalculator -/

/-- One emitted table row.  The source also carries `legTimeHrs`, a
two-decimal floating-point rendering of `legTimeMin / 60` used only for
display; no modelled behaviour reads it, so it is omitted. -/
structure LegRow where
  legIndex : Nat
  fromId : String
  toId : String
  legTimeMin : Nat
  eta : String
deriving DecidableEq, Repr

/-- The value returned by `calculateETAs`: in JS an array with two extra
properties; the early-return paths yield a plain array on which
`totalMinutes` and `finalEta` are `undefined`, modelled as `none`. -/
structure ETAResult where
  rows : List LegRow
  totalMinutes : Option Nat
  finalEta : Option String
deriving DecidableEq, Repr

/-- The `for` loop of `calculateETAs` over adjacent pairs of the traversal
sequence.  Arguments mirror the mutable locals: the leg counter, the
running clock (`currentMinutes`) and the running total
(`totalMinutesAccum`); the result is the pushed rows together with the
final clock and final total. -/
def legsFrom : List String → Nat → Nat → Nat → List LegRow × Nat × Nat
  | a :: b :: rest, legCounter, currentMinutes, totalAccum =>
    let lt := getLegTime a b
    let res := legsFrom (b :: rest) (legCounter + 1) (currentMinutes + lt) (totalAccum + lt)
    ({ legIndex := legCounter + 1, fromId := a, toId := b, legTimeMin := lt,
       eta := minutesToHHMM (currentMinutes + lt) } :: res.1, res.2.1, res.2.2)
  | _, _, currentMinutes, totalAccum => ([], currentMinutes, totalAccum)

/-- `calculateETAs(startTimeStr, startPoint)` over an explicit route (the
source reads the module variable `currentRoute`).  A missing/empty start
time and an empty traversal return the bare empty array; otherwise a
synthetic first leg is emitted when the start point is not the head of the
traversal, the adjacent-pair loop runs, and the aggregates are attached. -/
def calculateETAs (route : Route) (startTimeStr : String) (startPoint : String) : ETAResult :=
  if startTimeStr = "" then { rows := [], totalMinutes := none, finalEta := none }
  else
    let startMinutes := parseStartMinutes startTimeStr
    match buildTraversalSequence route startPoint with
    | [] => { rows := [], totalMinutes := none, finalEta := none }
    | t0 :: trest =>
      let first : List LegRow × Nat × Nat × Nat :=
        if startPoint ≠ t0 then
          let lt := getLegTime startPoint t0
          ([{ legIndex := 1, fromId := startPoint, toId := t0, legTimeMin := lt,
              eta := minutesToHHMM (startMinutes + lt) }], 1, startMinutes + lt, lt)
        else ([], 0, startMinutes, 0)
      let res := legsFrom (t0 :: trest) first.2.1 first.2.2.1 first.2.2.2
      let rows := first.1 ++ res.1
      { rows := rows,
        totalMinutes := some res.2.2,
        finalEta := some (match rows.getLast? with
          | some r => r.eta
          | none => minutesToHHMM startMinutes) }

/-- Formalization of the spec-side notion "parseable as an HH:MM clock
time": two non-empty digit components around a single colon, with the hour
below 24 and the minute below 60. -/
def isHHMMClock (s : String) : Bool :=
  match splitColon s with
  | [h, m] =>
    h.data.all (fun c => c.isDigit) && m.data.all (fun c => c.isDigit) &&
    decide (h ≠ "") && decide (m ≠ "") &&
    decide (numOr0 (some h) < 24) && decide (numOr0 (some m) < 60)
  | _ => false

/-! ## SelectionController: the mutable state and the event handlers

`dom : List String` is the (fixed) set of hotspot ids present in the page
markup — the hotspots live in the HTML, not in this script, so the model
keeps them abstract.  `domSelected` is the set of hotspot ids currently
carrying the `selected` CSS class; `classList.add`/`remove` only touch
existing elements, which is why `highlightPoint` guards on membership in
`dom`. -/

structure St where
  currentRoute : Route
  currentPointIndex : Nat
  activePointId : Option String
  pointsVisible : Bool
  domSelected : List String
deriving DecidableEq, Repr

/-- `setPointsVisibility(visible)`: `pointsVisible = !!visible` (the
opacity and aria updates are DOM-only). -/
def setPointsVisibility (v : Bool) (s : St) : St :=
  { s with pointsVisible := v }

/-- `unhighlightAll()`: removes the `selected` class from every hotspot and
clears `activePointId` (dot colors and opacity are DOM-only). -/
def unhighlightAll (s : St) : St :=
  { s with domSelected := [], activePointId := none }

/-- `classList.add('selected')`: a set-like insert. -/
def classAdd (sel : List String) (id : String) : List String :=
  if id ∈ sel then sel else id :: sel

/-- The first half of `highlightPoint`: `if(activePointId){ const prev =
getHotspotById(activePointId); if(prev) prev.classList.remove('selected'); }`.
JS truthiness: the guard is skipped both when `activePointId` is null and
when it is the empty string (falsy), so a `selected` mark left by
activating a `data-id=""` hotspot is never removed here. -/
def clearPrevSelected (dom : List String) (s : St) : List String :=
  match s.activePointId with
  | some prev =>
    if prev = "" then s.domSelected
    else if prev ∈ dom then s.domSelected.erase prev
    else s.domSelected
  | none => s.domSelected

/-- `highlightPoint(id)`: early return when `id` is already active;
otherwise un-mark the previous active hotspot (when its element exists),
mark the target (when its element exists), and set `activePointId`. -/
def highlightPoint (dom : List String) (id : String) (s : St) : St :=
  if s.activePointId = some id then s
  else
    { s with activePointId := some id,
             domSelected :=
               if id ∈ dom then classAdd (clearPrevSelected dom s) id
               else clearPrevSelected dom s }

/-- `renderPanel()`: looks up `points[currentPointIndex]`; when absent it
is a state no-op (panel text only); otherwise it highlights that point and
re-applies the current visibility. -/
def renderPanel (dom : List String) (s : St) : St :=
  match s.currentRoute.points[s.currentPointIndex]? with
  | none => s
  | some p => setPointsVisibility s.pointsVisible (highlightPoint dom p.id s)

/-- `showRoute(routeId)`: `routes.find(...) || routes[0]`; with a non-empty
point list, reset `currentPointIndex` to 0 only when it is out of range and
re-render; with an empty point list, clear the highlight. -/
def showRoute (dom : List String) (routeId : String) (s : St) : St :=
  let r := (routes.find? (fun rt => rt.id == routeId)).getD routeA
  let s1 := { s with currentRoute := r }
  if r.points.isEmpty then unhighlightAll s1
  else
    let s2 :=
      if r.points.length ≤ s1.currentPointIndex then { s1 with currentPointIndex := 0 }
      else s1
    renderPanel dom s2

/-- `resetAll()`: `unhighlightAll(); pointsVisible = true;
setPointsVisibility(true); showRoute(currentRoute.id)`. -/
def resetAll (dom : List String) (s : St) : St :=
  let s1 := unhighlightAll s
  let s2 := { s1 with pointsVisible := true }
  let s3 := setPointsVisibility true s2
  showRoute dom s3.currentRoute.id s3

/-- The `for (const r of routes)` search of the click handler: the first
catalog route containing the clicked id, with the index found there. -/
def findRouteWith (pid : String) : List Route → Option (Route × Nat)
  | [] => none
  | r :: rest =>
    match jsFindIndex (fun pt => pt.id == pid) r.points with
    | some f => some (r, f)
    | none => findRouteWith pid rest

/-- The `hotspotsContainer` click handler for a hotspot with id `pid`:
index in the current route, else switch to the first catalog route holding
it, else the detached display (highlight only). -/
def clickPoint (dom : List String) (pid : String) (s : St) : St :=
  match jsFindIndex (fun pt => pt.id == pid) s.currentRoute.points with
  | some idx => renderPanel dom { s with currentPointIndex := idx }
  | none =>
    match findRouteWith pid routes with
    | some (r, f) =>
      let s1 := { s with currentRoute := r }
      let s2 := showRoute dom r.id s1
      renderPanel dom { s2 with currentPointIndex := f }
    | none => highlightPoint dom pid s

/-- The `nextBtn` click handler (`idx < length - 1` over JS numbers is
`idx + 1 < length` over `Nat`, including the empty-route case). -/
def nextOp (dom : List String) (s : St) : St :=
  if s.currentPointIndex + 1 < s.currentRoute.points.length then
    renderPanel dom { s with currentPointIndex := s.currentPointIndex + 1 }
  else s

/-- The `prevBtn` click handler. -/
def prevOp (dom : List String) (s : St) : St :=
  if 0 < s.currentPointIndex then
    renderPanel dom { s with currentPointIndex := s.currentPointIndex - 1 }
  else s

/-- The `btnTogglePoints` click handler. -/
def toggleOp (s : St) : St :=
  setPointsVisibility (!s.pointsVisible) s

/-- The discrete external events the Presentation Layer can deliver. -/
inductive Op where
  | selectRoute (routeId : String)
  | click (pid : String)
  | next
  | prev
  | toggle
  | reset
deriving DecidableEq, Repr

/-- Dispatch of one event to its handler. -/
def step (dom : List String) : Op → St → St
  | Op.selectRoute rid, s => showRoute dom rid s
  | Op.click pid, s => clickPoint dom pid s
  | Op.next, s => nextOp dom s
  | Op.prev, s => prevOp dom s
  | Op.toggle, s => toggleOp s
  | Op.reset, s => resetAll dom s

/-- A whole event sequence. -/
def run (dom : List String) (ops : List Op) (s : St) : St :=
  ops.foldl (fun st op => step dom op st) s

/-- The `init()` IIFE: state starts at the first route, index 0, no active
point, points visible, no `selected` marks in the markup; then
`showRoute(currentRoute.id)` and `setPointsVisibility(true)` run. -/
def initState (dom : List String) : St :=
  let s0 : St :=
    { currentRoute := routeA, currentPointIndex := 0, activePointId := none,
      pointsVisible := true, domSelected := [] }
  setPointsVisibility true (showRoute dom routeA.id s0)

/-- The highlight-consistency invariant the program maintains: the
`selected` marks are distinct, only on existing hotspots, and every mark
other than the degenerate empty-string hotspot is the single active point.
(The `""` exception is forced by the source: `if(activePointId)` is falsy
for the empty string, so a mark left by activating a `data-id=""` hotspot
is never cleared; no catalog checkpoint has an empty id.) -/
def Inv (dom : List String) (s : St) : Prop :=
  s.domSelected.Nodup ∧
    (∀ x ∈ s.domSelected, x = "" ∨ s.activePointId = some x) ∧
    s.domSelected ⊆ dom

instance (dom : List String) (s : St) : Decidable (Inv dom s) := by
  unfold Inv; infer_instance

/-! ## Helper lemmas: index scans -/

theorem scanIdxAux_spec {α : Type} (pred : α → Bool) (l : List α) :
    ∀ i : Nat,
      (scanIdxAux pred l i = none ∧ ∀ x ∈ l, pred x = false) ∨
      (∃ d x, scanIdxAux pred l i = some (i + d) ∧ l[d]? = some x ∧ pred x = true ∧
        ∀ k, k < d → ∀ y, l[k]? = some y → pred y = false) := by
  induction l with
  | nil => intro i; exact Or.inl ⟨rfl, by simp⟩
  | cons q qs ih =>
    intro i
    by_cases h : pred q = true
    · refine Or.inr ⟨0, q, ?_, by simp, h, ?_⟩
      · simp [scanIdxAux, h]
      · intro k hk; omega
    · rcases ih (i + 1) with ⟨hn, hall⟩ | ⟨d, x, hs, hg, hp, hb⟩
      · refine Or.inl ⟨?_, ?_⟩
        · simp [scanIdxAux, h, hn]
        · intro x hx
          rcases List.mem_cons.mp hx with rfl | hx
          · simpa using h
          · exact hall x hx
      · refine Or.inr ⟨d + 1, x, ?_, ?_, hp, ?_⟩
        · have e : i + 1 + d = i + (d + 1) := by omega
          rw [← e]
          simpa [scanIdxAux, h] using hs
        · simpa using hg
        · intro k hk y hy
          cases k with
          | zero =>
            have : q = y := by simpa using hy
            subst this
            simpa using h
          | succ k =>
            exact hb k (by omega) y (by simpa using hy)

theorem jsFindIndex_eq_none_iff {α : Type} (pred : α → Bool) (l : List α) :
    jsFindIndex pred l = none ↔ ∀ x ∈ l, pred x = false := by
  constructor
  · intro h
    rcases scanIdxAux_spec pred l 0 with ⟨_, hall⟩ | ⟨d, x, hs, _, _, _⟩
    · exact hall
    · rw [jsFindIndex, hs] at h; cases h
  · intro hall
    rcases scanIdxAux_spec pred l 0 with ⟨hn, _⟩ | ⟨d, x, hs, hg, hp, _⟩
    · exact hn
    · obtain ⟨hd, hx⟩ := List.getElem?_eq_some.mp hg
      have hmem : x ∈ l := hx ▸ List.getElem_mem hd
      rw [hall x hmem] at hp
      cases hp

theorem jsFindIndex_eq_some {α : Type} (pred : α → Bool) (l : List α) (i : Nat)
    (h : jsFindIndex pred l = some i) :
    ∃ x, l[i]? = some x ∧ pred x = true ∧
      ∀ k, k < i → ∀ y, l[k]? = some y → pred y = false := by
  rcases scanIdxAux_spec pred l 0 with ⟨hn, _⟩ | ⟨d, x, hs, hg, hp, hb⟩
  · rw [jsFindIndex, hn] at h; cases h
  · rw [jsFindIndex, hs] at h
    have hd : d = i := by
      have := Option.some_inj.mp h; omega
    subst hd
    exact ⟨x, hg, hp, hb⟩

theorem jsFindIndex_lt_length {α : Type} (pred : α → Bool) (l : List α) (i : Nat)
    (h : jsFindIndex pred l = some i) : i < l.length := by
  obtain ⟨x, hx, -, -⟩ := jsFindIndex_eq_some pred l i h
  exact (List.getElem?_eq_some.mp hx).1

/-! ## Helper lemmas: the ETA loop -/

theorem legsFrom_total (l : List String) :
    ∀ c m a : Nat,
      (legsFrom l c m a).2.2 = a + ((legsFrom l c m a).1.map LegRow.legTimeMin).sum := by
  induction l with
  | nil => intro c m a; simp [legsFrom]
  | cons x xs ih =>
    intro c m a
    cases xs with
    | nil => simp [legsFrom]
    | cons b rest =>
      simp only [legsFrom, List.map_cons, List.sum_cons]
      rw [ih (c + 1) (m + getLegTime x b) (a + getLegTime x b)]
      omega

theorem legsFrom_length (l : List String) :
    ∀ c m a : Nat, (legsFrom l c m a).1.length = l.length - 1 := by
  induction l with
  | nil => intro c m a; simp [legsFrom]
  | cons x xs ih =>
    intro c m a
    cases xs with
    | nil => simp [legsFrom]
    | cons b rest =>
      simp only [legsFrom, List.length_cons]
      rw [ih (c + 1) (m + getLegTime x b) (a + getLegTime x b)]
      simp

/-! ## Helper lemmas: the catalog and the matrix -/

theorem route_mem_cases (r : Route) (hr : r ∈ routes) : r = routeA ∨ r = routeB := by
  simpa [routes] using hr

theorem routes_points_nodup (r : Route) (hr : r ∈ routes) :
    (r.points.map Point.id).Nodup := by
  rcases route_mem_cases r hr with rfl | rfl <;> decide

theorem routes_points_ne_nil (r : Route) (hr : r ∈ routes) : r.points ≠ [] := by
  rcases route_mem_cases r hr with rfl | rfl <;> decide

theorem matrixLookup_left_empty (b : String) : matrixLookup "" b = none := rfl

theorem matrixLookup_right_empty (a : String) : matrixLookup a "" = none := by
  unfold matrixLookup
  cases h : timeMatrix.find? (fun row => row.1 == a) with
  | none => rfl
  | some row =>
    have hmem := List.mem_of_find?_eq_some h
    have hrow : ∀ p ∈ timeMatrix, p.2.find? (fun cell => cell.1 == "") = none := by decide
    simp [hrow row hmem]

theorem matrixLookup_ne_empty {a b : String} {v : Nat} (h : matrixLookup a b = some v) :
    a ≠ "" ∧ b ≠ "" := by
  constructor
  · rintro rfl; rw [matrixLookup_left_empty] at h; cases h
  · rintro rfl; rw [matrixLookup_right_empty] at h; cases h

/-! ## Helper lemmas: traversal shape -/

theorem buildTraversal_cases (r : Route) (origin : String) :
    (∃ i, jsFindIndex (fun q => q == origin) (r.points.map Point.id) = some i ∧
      buildTraversalSequence r origin = (r.points.map Point.id).drop i) ∨
    (jsFindIndex (fun q => q == origin) (r.points.map Point.id) = none ∧
      ((∃ i, jsFindIndex (fun q => decide (0 < getLegTime origin q))
          (r.points.map Point.id) = some i ∧
        buildTraversalSequence r origin = (r.points.map Point.id).drop i) ∨
       (jsFindIndex (fun q => decide (0 < getLegTime origin q))
          (r.points.map Point.id) = none ∧
        buildTraversalSequence r origin = r.points.map Point.id))) := by
  unfold buildTraversalSequence
  cases h1 : jsFindIndex (fun q => q == origin) (r.points.map Point.id) with
  | some i => exact Or.inl ⟨i, rfl, by simp [h1]⟩
  | none =>
    refine Or.inr ⟨rfl, ?_⟩
    cases h2 : jsFindIndex (fun q => decide (0 < getLegTime origin q))
        (r.points.map Point.id) with
    | some i => exact Or.inl ⟨i, rfl, by simp [h1, h2]⟩
    | none => exact Or.inr ⟨rfl, by simp [h1, h2]⟩

theorem buildTraversal_suffix (r : Route) (origin : String) :
    List.IsSuffix (buildTraversalSequence r origin) (r.points.map Point.id) := by
  rcases buildTraversal_cases r origin with ⟨i, -, he⟩ | ⟨-, ⟨i, -, he⟩ | ⟨-, he⟩⟩
  · rw [he]; exact List.drop_suffix i _
  · rw [he]; exact List.drop_suffix i _
  · rw [he]

theorem buildTraversal_ne_nil (r : Route) (origin : String) (h : r.points ≠ []) :
    buildTraversalSequence r origin ≠ [] := by
  have hlen : r.points.map Point.id ≠ [] := by
    intro hcon; exact h (List.map_eq_nil_iff.mp hcon)
  rcases buildTraversal_cases r origin with ⟨i, hi, he⟩ | ⟨-, ⟨i, hi, he⟩ | ⟨-, he⟩⟩
  · rw [he]
    intro hcon
    have := List.drop_eq_nil_iff.mp hcon
    have := jsFindIndex_lt_length _ _ i hi
    omega
  · rw [he]
    intro hcon
    have := List.drop_eq_nil_iff.mp hcon
    have := jsFindIndex_lt_length _ _ i hi
    omega
  · rw [he]; exact hlen

/-! ## Helper lemmas: the state machine -/

theorem highlightPoint_activePointId (dom : List String) (id : String) (s : St) :
    (highlightPoint dom id s).activePointId = some id := by
  by_cases h : s.activePointId = some id <;> simp [highlightPoint, h]

theorem highlightPoint_currentRoute (dom : List String) (id : String) (s : St) :
    (highlightPoint dom id s).currentRoute = s.currentRoute := by
  by_cases h : s.activePointId = some id <;> simp [highlightPoint, h]

theorem highlightPoint_currentPointIndex (dom : List String) (id : String) (s : St) :
    (highlightPoint dom id s).currentPointIndex = s.currentPointIndex := by
  by_cases h : s.activePointId = some id <;> simp [highlightPoint, h]

theorem highlightPoint_pointsVisible (dom : List String) (id : String) (s : St) :
    (highlightPoint dom id s).pointsVisible = s.pointsVisible := by
  by_cases h : s.activePointId = some id <;> simp [highlightPoint, h]

theorem renderPanel_currentRoute (dom : List String) (s : St) :
    (renderPanel dom s).currentRoute = s.currentRoute := by
  unfold renderPanel
  cases s.currentRoute.points[s.currentPointIndex]? with
  | none => rfl
  | some p => simp [setPointsVisibility, highlightPoint_currentRoute]

theorem renderPanel_currentPointIndex (dom : List String) (s : St) :
    (renderPanel dom s).currentPointIndex = s.currentPointIndex := by
  unfold renderPanel
  cases s.currentRoute.points[s.currentPointIndex]? with
  | none => rfl
  | some p => simp [setPointsVisibility, highlightPoint_currentPointIndex]

theorem renderPanel_pointsVisible (dom : List String) (s : St) :
    (renderPanel dom s).pointsVisible = s.pointsVisible := by
  unfold renderPanel
  cases s.currentRoute.points[s.currentPointIndex]? with
  | none => rfl
  | some p => simp [setPointsVisibility]

theorem renderPanel_activePointId (dom : List String) (s : St) (p : Point)
    (h : s.currentRoute.points[s.currentPointIndex]? = some p) :
    (renderPanel dom s).activePointId = some p.id := by
  unfold renderPanel
  rw [h]
  simp [setPointsVisibility, highlightPoint_activePointId]

theorem clearPrevSelected_subset (dom : List String) (s : St) :
    clearPrevSelected dom s ⊆ s.domSelected := by
  unfold clearPrevSelected
  cases s.activePointId with
  | none => exact fun x hx => hx
  | some prev =>
    dsimp only
    by_cases hp : prev = ""
    · rw [if_pos hp]; exact fun x hx => hx
    · rw [if_neg hp]
      by_cases hd : prev ∈ dom
      · rw [if_pos hd]; intro x hx; exact List.mem_of_mem_erase hx
      · rw [if_neg hd]; exact fun x hx => hx

theorem clearPrevSelected_nodup (dom : List String) (s : St)
    (hnd : s.domSelected.Nodup) : (clearPrevSelected dom s).Nodup := by
  unfold clearPrevSelected
  cases s.activePointId with
  | none => exact hnd
  | some prev =>
    dsimp only
    by_cases hp : prev = ""
    · rw [if_pos hp]; exact hnd
    · rw [if_neg hp]
      by_cases hd : prev ∈ dom
      · rw [if_pos hd]; exact hnd.erase prev
      · rw [if_neg hd]; exact hnd

theorem clearPrevSelected_all_empty (dom : List String) (s : St) (h : Inv dom s) :
    ∀ x ∈ clearPrevSelected dom s, x = "" := by
  obtain ⟨hnd, hact, hsub⟩ := h
  intro x hx
  unfold clearPrevSelected at hx
  cases ha : s.activePointId with
  | none =>
    rw [ha] at hx
    rcases hact x hx with he | he
    · exact he
    · rw [ha] at he; cases he
  | some prev =>
    rw [ha] at hx
    dsimp only at hx
    by_cases hp : prev = ""
    · rw [if_pos hp] at hx
      rcases hact x hx with he | he
      · exact he
      · rw [ha, hp] at he
        exact (Option.some_inj.mp he).symm
    · rw [if_neg hp] at hx
      by_cases hd : prev ∈ dom
      · rw [if_pos hd] at hx
        have hx0 : x ∈ s.domSelected := List.mem_of_mem_erase hx
        rcases hact x hx0 with he | he
        · exact he
        · exfalso
          rw [ha] at he
          have hxp : x = prev := (Option.some_inj.mp he).symm
          subst hxp
          exact ((List.Nodup.mem_erase_iff hnd).mp hx).1 rfl
      · rw [if_neg hd] at hx
        rcases hact x hx with he | he
        · exact he
        · exfalso
          rw [ha] at he
          have hxp : x = prev := (Option.some_inj.mp he).symm
          exact hd (hxp ▸ hsub hx)

theorem inv_unhighlightAll (dom : List String) (s : St) : Inv dom (unhighlightAll s) := by
  simp [Inv, unhighlightAll]

theorem inv_setPointsVisibility (dom : List String) (v : Bool) (s : St) (h : Inv dom s) :
    Inv dom (setPointsVisibility v s) := h

theorem inv_fields (dom : List String) (s s2 : St) (h : Inv dom s)
    (hsel : s2.domSelected = s.domSelected) (hact : s2.activePointId = s.activePointId) :
    Inv dom s2 := by
  obtain ⟨hnd, hall, hsub⟩ := h
  exact ⟨hsel ▸ hnd, by rw [hsel, hact]; exact hall, hsel ▸ hsub⟩

theorem inv_highlightPoint (dom : List String) (id : String) (s : St) (h : Inv dom s) :
    Inv dom (highlightPoint dom id s) := by
  by_cases h0 : s.activePointId = some id
  · simpa [highlightPoint, h0] using h
  · have hall := clearPrevSelected_all_empty dom s h
    have hnd := clearPrevSelected_nodup dom s h.1
    have hsub : clearPrevSelected dom s ⊆ dom :=
      (clearPrevSelected_subset dom s).trans h.2.2
    unfold highlightPoint
    rw [if_neg h0]
    by_cases hid : id ∈ dom
    · rw [if_pos hid]
      unfold classAdd
      by_cases hmem : id ∈ clearPrevSelected dom s
      · rw [if_pos hmem]
        exact ⟨hnd, fun x hx => Or.inl (hall x hx), hsub⟩
      · rw [if_neg hmem]
        refine ⟨List.nodup_cons.mpr ⟨hmem, hnd⟩, ?_, ?_⟩
        · intro x hx
          rcases List.mem_cons.mp hx with rfl | hx
          · exact Or.inr rfl
          · exact Or.inl (hall x hx)
        · intro x hx
          rcases List.mem_cons.mp hx with rfl | hx
          · exact hid
          · exact hsub hx
    · rw [if_neg hid]
      exact ⟨hnd, fun x hx => Or.inl (hall x hx), hsub⟩

theorem inv_renderPanel (dom : List String) (s : St) (h : Inv dom s) :
    Inv dom (renderPanel dom s) := by
  unfold renderPanel
  cases s.currentRoute.points[s.currentPointIndex]? with
  | none => exact h
  | some p =>
    exact inv_setPointsVisibility dom _ _ (inv_highlightPoint dom p.id s h)

theorem inv_showRoute (dom : List String) (routeId : String) (s : St) (h : Inv dom s) :
    Inv dom (showRoute dom routeId s) := by
  unfold showRoute
  set r := (routes.find? (fun rt => rt.id == routeId)).getD routeA with hr
  by_cases he : r.points.isEmpty
  · simp only [he, if_true]
    exact inv_unhighlightAll dom _
  · simp only [he, if_false]
    apply inv_renderPanel
    by_cases hi : r.points.length ≤ s.currentPointIndex <;>
      simp only [hi, if_true, if_false] <;>
      exact inv_fields dom s _ h rfl rfl

theorem inv_resetAll (dom : List String) (s : St) (h : Inv dom s) :
    Inv dom (resetAll dom s) := by
  unfold resetAll
  apply inv_showRoute
  exact inv_setPointsVisibility dom _ _
    (inv_fields dom _ _ (inv_unhighlightAll dom s) rfl rfl)

theorem inv_clickPoint (dom : List String) (pid : String) (s : St) (h : Inv dom s) :
    Inv dom (clickPoint dom pid s) := by
  unfold clickPoint
  cases jsFindIndex (fun pt => pt.id == pid) s.currentRoute.points with
  | some idx => exact inv_renderPanel dom _ (inv_fields dom s _ h rfl rfl)
  | none =>
    cases findRouteWith pid routes with
    | some rf =>
      exact inv_renderPanel dom _
        (inv_fields dom _ _
          (inv_showRoute dom rf.1.id _ (inv_fields dom s _ h rfl rfl)) rfl rfl)
    | none => exact inv_highlightPoint dom pid s h

theorem inv_nextOp (dom : List String) (s : St) (h : Inv dom s) :
    Inv dom (nextOp dom s) := by
  unfold nextOp
  by_cases hc : s.currentPointIndex + 1 < s.currentRoute.points.length
  · simp only [hc, if_true]
    exact inv_renderPanel dom _ (inv_fields dom s _ h rfl rfl)
  · simp only [hc, if_false]
    exact h

theorem inv_prevOp (dom : List String) (s : St) (h : Inv dom s) :
    Inv dom (prevOp dom s) := by
  unfold prevOp
  by_cases hc : 0 < s.currentPointIndex
  · simp only [hc, if_true]
    exact inv_renderPanel dom _ (inv_fields dom s _ h rfl rfl)
  · simp only [hc, if_false]
    exact h

theorem inv_step (dom : List String) (op : Op) (s : St) (h : Inv dom s) :
    Inv dom (step dom op s) := by
  cases op with
  | selectRoute rid => exact inv_showRoute dom rid s h
  | click pid => exact inv_clickPoint dom pid s h
  | next => exact inv_nextOp dom s h
  | prev => exact inv_prevOp dom s h
  | toggle => exact inv_setPointsVisibility dom _ s h
  | reset => exact inv_resetAll dom s h

theorem inv_run (dom : List String) (ops : List Op) :
    ∀ s : St, Inv dom s → Inv dom (run dom ops s) := by
  induction ops with
  | nil => intro s h; exact h
  | cons op rest ih =>
    intro s h
    exact ih (step dom op s) (inv_step dom op s h)

theorem inv_initState (dom : List String) : Inv dom (initState dom) := by
  unfold initState
  apply inv_setPointsVisibility
  apply inv_showRoute
  exact ⟨List.nodup_nil, by simp, by simp⟩

theorem clickPoint_inRoute (dom : List String) (pid : String) (s : St)
    (h : pid ∈ s.currentRoute.points.map Point.id) :
    (clickPoint dom pid s).activePointId = some pid ∧
    (clickPoint dom pid s).currentRoute = s.currentRoute := by
  have hfind : ∃ i p, jsFindIndex (fun pt => pt.id == pid) s.currentRoute.points = some i ∧
      s.currentRoute.points[i]? = some p ∧ p.id = pid := by
    cases hfi : jsFindIndex (fun pt => pt.id == pid) s.currentRoute.points with
    | none =>
      exfalso
      have hall := (jsFindIndex_eq_none_iff _ _).mp hfi
      obtain ⟨pt, hpt, hpe⟩ := List.mem_map.mp h
      have := hall pt hpt
      rw [hpe] at this
      simp at this
    | some i =>
      obtain ⟨x, hx, hpx, -⟩ := jsFindIndex_eq_some _ _ i hfi
      exact ⟨i, x, rfl, hx, by simpa using hpx⟩
  obtain ⟨i, p, hfi, hp, hpid⟩ := hfind
  unfold clickPoint
  rw [hfi]
  constructor
  · rw [renderPanel_activePointId dom _ p (by simpa using hp)]
    rw [hpid]
  · rw [renderPanel_currentRoute]

/-! ## Claim theorems -/

theorem getLegTime_forward (a b : String) (v : Nat) (h : matrixLookup a b = some v) :
    getLegTime a b = v := by
  obtain ⟨ha, hb⟩ := matrixLookup_ne_empty h
  unfold getLegTime
  rw [if_neg (by tauto)]
  rw [h]

theorem getLegTime_reverse (a b : String) (v : Nat) (h0 : matrixLookup a b = none)
    (h : matrixLookup b a = some v) : getLegTime a b = v := by
  obtain ⟨hb, ha⟩ := matrixLookup_ne_empty h
  unfold getLegTime
  rw [if_neg (by tauto)]
  rw [h0, h]
  rfl

theorem getLegTime_undefined (a b : String) (h0 : matrixLookup a b = none)
    (h1 : matrixLookup b a = none) : getLegTime a b = 0 := by
  unfold getLegTime
  by_cases he : a = "" ∨ b = ""
  · rw [if_pos he]
  · rw [if_neg he, h0, h1]
    rfl

/-- C4: `getLegTime(from, to)` returns the directed entry `from→to` when it
exists (the forward value wins even when the reverse entry exists and
disagrees, since the reverse lookup is only reached on a forward miss);
otherwise the reverse entry `to→from` when that exists — so
`legTime(a,b) = legTime(b,a)` whenever exactly one direction is defined —
and otherwise 0, including `legTime(a,a)` on a pair with no entry. -/
theorem leg_time_spec (a b : String) :
    (∀ v, matrixLookup a b = some v → getLegTime a b = v) ∧
    (matrixLookup a b = none → ∀ v, matrixLookup b a = some v → getLegTime a b = v) ∧
    (matrixLookup a b = none → matrixLookup b a = none → getLegTime a b = 0) ∧
    (matrixLookup a b ≠ none → matrixLookup b a = none →
      getLegTime a b = getLegTime b a) ∧
    (matrixLookup a a = none → getLegTime a a = 0) := by
  refine ⟨getLegTime_forward a b, fun h0 v hv => getLegTime_reverse a b v h0 hv,
    getLegTime_undefined a b, ?_, ?_⟩
  · intro hab hba
    obtain ⟨v, hv⟩ := Option.ne_none_iff_exists'.mp hab
    rw [getLegTime_forward a b v hv, getLegTime_reverse b a v hba hv]
  · intro h
    exact getLegTime_undefined a a h h

/-- C4 witness: concrete instances — the directed entry `P→Q`, the reverse
fallback `Q→P`, and an undefined self-pair. -/
theorem leg_time_spec_witness :
    getLegTime "P" "Q" = 14 ∧ getLegTime "Q" "P" = 14 ∧ getLegTime "Z" "Z" = 0 :=
  ⟨(leg_time_spec "P" "Q").1 14 (by decide),
   (leg_time_spec "Q" "P").2.1 (by decide) 14 (by decide),
   (leg_time_spec "Z" "Z").2.2.2.2 (by decide)⟩

/-- C7: clock conversion — 0 minutes is "00:00", 90 minutes is "01:30",
1440 minutes is the out-of-range string "24:00" (no day wraparound), and in
general the result is floor(n/60) zero-padded to two digits, a colon, and
n mod 60 zero-padded to two digits, whose hour component floor(n/60)
exceeds 23 whenever n ≥ 1440. -/
theorem clock_conversion_spec :
    minutesToHHMM 0 = "00:00" ∧ minutesToHHMM 90 = "01:30" ∧
    minutesToHHMM 1440 = "24:00" ∧
    (∀ n : Nat, minutesToHHMM n =
      padStart2 (Nat.repr (n / 60)) ++ ":" ++ padStart2 (Nat.repr (n % 60))) ∧
    (∀ n : Nat, 1440 ≤ n → 23 < n / 60) :=
  ⟨by decide, by decide, by decide, fun n => rfl, fun n h => by omega⟩

/-- C7 witness: the out-of-range-hour conjunct applied at 1500 minutes. -/
theorem clock_conversion_spec_witness : 1440 ≤ 1500 ∧ 23 < 1500 / 60 :=
  ⟨by decide, clock_conversion_spec.2.2.2.2 1500 (by decide)⟩

/-- C5: Scenario 1 — on Route Alpha `[P,Q,R,S,T,U,S/P]` with the configured
matrix legs P→Q=14, Q→R=12, R→S=11, S→T=9, T→U=15, U→S/P=8, start time
"06:00" and origin P, the computation yields exactly 6 legs with ETAs
06:14, 06:26, 06:37, 06:46, 07:01, 07:09, totalMinutes 69 and finalEta
"07:09". -/
theorem eta_scenario1 :
    routeA.points.map Point.id = ["P", "Q", "R", "S", "T", "U", "S/P"] ∧
    getLegTime "P" "Q" = 14 ∧ getLegTime "Q" "R" = 12 ∧ getLegTime "R" "S" = 11 ∧
    getLegTime "S" "T" = 9 ∧ getLegTime "T" "U" = 15 ∧ getLegTime "U" "S/P" = 8 ∧
    calculateETAs routeA "06:00" "P" =
      { rows := [
          { legIndex := 1, fromId := "P", toId := "Q", legTimeMin := 14, eta := "06:14" },
          { legIndex := 2, fromId := "Q", toId := "R", legTimeMin := 12, eta := "06:26" },
          { legIndex := 3, fromId := "R", toId := "S", legTimeMin := 11, eta := "06:37" },
          { legIndex := 4, fromId := "S", toId := "T", legTimeMin := 9, eta := "06:46" },
          { legIndex := 5, fromId := "T", toId := "U", legTimeMin := 15, eta := "07:01" },
          { legIndex := 6, fromId := "U", toId := "S/P", legTimeMin := 8, eta := "07:09" } ],
        totalMinutes := some 69,
        finalEta := some "07:09" } := by
  decide

/-- C2 counterexample: the start time "abc" is not parseable as an HH:MM
clock time, yet `calculateETAs` does not return an empty sequence for it —
it produces the full 6-leg schedule of Route Alpha from origin P. -/
theorem eta_unparseable_cex :
    isHHMMClock "abc" = false ∧ (calculateETAs routeA "abc" "P").rows ≠ [] := by
  decide

/-- C2 amended: only a missing (empty) start time yields an empty leg
sequence; a non-empty unparseable start time is not rejected — its
non-numeric components are coerced to 0, so e.g. "abc" behaves exactly like
"00:00" and produces a full schedule. -/
theorem eta_start_time_amended :
    (∀ (r : Route) (p : String), (calculateETAs r "" p).rows = []) ∧
    calculateETAs routeA "abc" "P" = calculateETAs routeA "00:00" "P" ∧
    (calculateETAs routeA "abc" "P").rows.length = 6 := by
  refine ⟨fun r p => rfl, by decide, by decide⟩

/-- C3: the traversal sequence is a suffix of the route's point-id list
(hence order-preserving), has no repeats, is never empty, and is exactly:
the suffix from the origin's (first) position when the origin is a route
member; else the suffix from the first point with a positive leg time from
the origin; else the entire route point sequence. -/
theorem traversal_resolver_spec (r : Route) (hr : r ∈ routes) (origin : String) :
    List.IsSuffix (buildTraversalSequence r origin) (r.points.map Point.id) ∧
    (buildTraversalSequence r origin).Nodup ∧
    buildTraversalSequence r origin ≠ [] ∧
    (origin ∈ r.points.map Point.id →
      ∃ i, (r.points.map Point.id)[i]? = some origin ∧
        (∀ k, k < i → (r.points.map Point.id)[k]? ≠ some origin) ∧
        buildTraversalSequence r origin = (r.points.map Point.id).drop i) ∧
    (origin ∉ r.points.map Point.id →
      (∃ i q, (r.points.map Point.id)[i]? = some q ∧ 0 < getLegTime origin q ∧
        (∀ k, k < i → ∀ y, (r.points.map Point.id)[k]? = some y →
          getLegTime origin y = 0) ∧
        buildTraversalSequence r origin = (r.points.map Point.id).drop i) ∨
      ((∀ q ∈ r.points.map Point.id, getLegTime origin q = 0) ∧
        buildTraversalSequence r origin = r.points.map Point.id)) := by
  refine ⟨buildTraversal_suffix r origin,
    ((buildTraversal_suffix r origin).sublist).nodup (routes_points_nodup r hr),
    buildTraversal_ne_nil r origin (routes_points_ne_nil r hr), ?_, ?_⟩
  · intro hmem
    cases hfi : jsFindIndex (fun q => q == origin) (r.points.map Point.id) with
    | none =>
      exfalso
      have hall := (jsFindIndex_eq_none_iff _ _).mp hfi
      have := hall origin hmem
      simp at this
    | some i =>
      obtain ⟨x, hx, hpx, hbefore⟩ := jsFindIndex_eq_some _ _ i hfi
      have hxe : x = origin := by simpa using hpx
      refine ⟨i, hxe ▸ hx, ?_, ?_⟩
      · intro k hk hcon
        exact absurd (hbefore k hk origin hcon) (by simp)
      · unfold buildTraversalSequence
        simp [hfi]
  · intro hmem
    have h1 : jsFindIndex (fun q => q == origin) (r.points.map Point.id) = none := by
      apply (jsFindIndex_eq_none_iff _ _).mpr
      intro x hx
      rw [beq_eq_false_iff_ne]
      rintro rfl
      exact hmem hx
    cases hfi : jsFindIndex (fun q => decide (0 < getLegTime origin q))
        (r.points.map Point.id) with
    | none =>
      refine Or.inr ⟨?_, ?_⟩
      · intro q hq
        have hall := (jsFindIndex_eq_none_iff _ _).mp hfi
        have := hall q hq
        simpa using this
      · unfold buildTraversalSequence
        simp [h1, hfi]
    | some i =>
      obtain ⟨x, hx, hpx, hbefore⟩ := jsFindIndex_eq_some _ _ i hfi
      refine Or.inl ⟨i, x, hx, by simpa using hpx, ?_, ?_⟩
      · intro k hk y hy
        have := hbefore k hk y hy
        simpa using this
      · unfold buildTraversalSequence
        simp [h1, hfi]

/-- C3 witness: concrete instance at Route Alpha with the external origin
VOCC (reachable route entry is the first point P, so the traversal is the
whole route). -/
theorem traversal_resolver_spec_witness :
    List.IsSuffix (buildTraversalSequence routeA "VOCC") (routeA.points.map Point.id) ∧
    buildTraversalSequence routeA "VOCC" ≠ [] :=
  ⟨(traversal_resolver_spec routeA (by decide) "VOCC").1,
   (traversal_resolver_spec routeA (by decide) "VOCC").2.2.1⟩

/-- C6: for any catalog route and any start time that is a well-formed
clock string (its parse re-prints to itself, the formal reading of
"parseable as HH:MM"), the attached totalMinutes equals the sum of the
emitted rows' minutes, and finalEta is the eta of the last emitted row —
or the unconverted start time itself when zero rows were emitted. -/
theorem eta_totals (r : Route) (hr : r ∈ routes) (s p : String)
    (hne : s ≠ "") (hs : minutesToHHMM (parseStartMinutes s) = s) :
    (calculateETAs r s p).totalMinutes =
      some (((calculateETAs r s p).rows.map LegRow.legTimeMin).sum) ∧
    (calculateETAs r s p).finalEta =
      some (match (calculateETAs r s p).rows.getLast? with
            | some row => row.eta
            | none => s) := by
  obtain ⟨t0, trest, ht⟩ :=
    List.exists_cons_of_ne_nil (buildTraversal_ne_nil r p (routes_points_ne_nil r hr))
  unfold calculateETAs
  rw [if_neg hne, ht]
  by_cases hsp : p = t0
  · simp only [hsp, ne_eq, not_true_eq_false, if_false, List.nil_append]
    constructor
    · rw [legsFrom_total]
      simp
    · rw [hs]
  · simp only [ne_eq, hsp, not_false_eq_true, if_true, List.singleton_append]
    constructor
    · rw [legsFrom_total]
      simp only [List.map_cons, List.sum_cons]
    · simp only [List.getLast?_cons]

/-- C6 witness: Route Alpha from its terminal point S/P at 06:00 (zero legs
emitted: finalEta is the start time) — plus the aggregate equation there. -/
theorem eta_totals_witness :
    (calculateETAs routeA "06:00" "S/P").totalMinutes =
      some (((calculateETAs routeA "06:00" "S/P").rows.map LegRow.legTimeMin).sum) ∧
    (calculateETAs routeA "06:00" "S/P").finalEta =
      some (match (calculateETAs routeA "06:00" "S/P").rows.getLast? with
            | some row => row.eta
            | none => "06:00") :=
  eta_totals routeA (by decide) "06:00" "S/P" (by decide) (by decide)

/-- C10: with a non-empty start time, an origin that is not a member of the
route and has no positive leg time to any of its points (the full-route
fallback), the schedule still begins with a synthetic leg from the origin
to the route's first point with 0 minutes, followed by one leg per adjacent
route pair — the external origin is kept in the schedule, not dropped. -/
theorem eta_external_origin_fallback (r : Route) (hr : r ∈ routes) (t p : String)
    (ht : t ≠ "") (hmem : p ∉ r.points.map Point.id)
    (hleg : ∀ q ∈ r.points.map Point.id, getLegTime p q = 0) :
    ∃ q0 qs rest, r.points.map Point.id = q0 :: qs ∧
      (calculateETAs r t p).rows =
        { legIndex := 1, fromId := p, toId := q0, legTimeMin := 0,
          eta := minutesToHHMM (parseStartMinutes t) } :: rest ∧
      rest.length = qs.length := by
  have h1 : jsFindIndex (fun q => q == p) (r.points.map Point.id) = none := by
    apply (jsFindIndex_eq_none_iff _ _).mpr
    intro x hx
    rw [beq_eq_false_iff_ne]
    rintro rfl
    exact hmem hx
  have h2 : jsFindIndex (fun q => decide (0 < getLegTime p q))
      (r.points.map Point.id) = none := by
    apply (jsFindIndex_eq_none_iff _ _).mpr
    intro x hx
    simp [hleg x hx]
  have htrav : buildTraversalSequence r p = r.points.map Point.id := by
    unfold buildTraversalSequence
    simp [h1, h2]
  obtain ⟨q0, qs, hq⟩ := List.exists_cons_of_ne_nil
    (show r.points.map Point.id ≠ [] from
      fun hcon => routes_points_ne_nil r hr (List.map_eq_nil_iff.mp hcon))
  have hp0 : p ≠ q0 := fun hpe =>
    hmem (by rw [hq, hpe]; exact List.mem_cons_self q0 qs)
  have hlt : getLegTime p q0 = 0 := hleg q0 (hq ▸ List.mem_cons_self q0 qs)
  refine ⟨q0, qs,
    (legsFrom (q0 :: qs) 1 (parseStartMinutes t + getLegTime p q0) (getLegTime p q0)).1,
    hq, ?_, ?_⟩
  · unfold calculateETAs
    rw [if_neg ht, htrav, hq]
    simp only [ne_eq, hp0, not_false_eq_true, if_true, List.singleton_append]
    rw [hlt]
    simp
  · rw [legsFrom_length]
    simp

/-- C10 witness: origin "X" (absent from the matrix and from Route Alpha)
at start time 06:00: the fallback synthetic zero-minute leg X → P opens the
schedule. -/
theorem eta_external_origin_fallback_witness :
    ∃ q0 qs rest, routeA.points.map Point.id = q0 :: qs ∧
      (calculateETAs routeA "06:00" "X").rows =
        { legIndex := 1, fromId := "X", toId := q0, legTimeMin := 0,
          eta := minutesToHHMM (parseStartMinutes "06:00") } :: rest ∧
      rest.length = qs.length :=
  eta_external_origin_fallback routeA (by decide) "06:00" "X" (by decide) (by decide)
    (by decide)

theorem nextOp_cases (dom : List String) (s : St) :
    (s.currentPointIndex + 1 < s.currentRoute.points.length ∧
      (nextOp dom s).currentRoute = s.currentRoute ∧
      (nextOp dom s).currentPointIndex = s.currentPointIndex + 1) ∨
    (¬ s.currentPointIndex + 1 < s.currentRoute.points.length ∧ nextOp dom s = s) := by
  unfold nextOp
  by_cases hn : s.currentPointIndex + 1 < s.currentRoute.points.length
  · refine Or.inl ⟨hn, ?_, ?_⟩ <;> rw [if_pos hn]
    · rw [renderPanel_currentRoute]
    · rw [renderPanel_currentPointIndex]
  · exact Or.inr ⟨hn, if_neg hn⟩

theorem prevOp_cases (dom : List String) (s : St) :
    (0 < s.currentPointIndex ∧
      (prevOp dom s).currentRoute = s.currentRoute ∧
      (prevOp dom s).currentPointIndex = s.currentPointIndex - 1) ∨
    (¬ 0 < s.currentPointIndex ∧ prevOp dom s = s) := by
  unfold prevOp
  by_cases hp : 0 < s.currentPointIndex
  · refine Or.inl ⟨hp, ?_, ?_⟩ <;> rw [if_pos hp]
    · rw [renderPanel_currentRoute]
    · rw [renderPanel_currentPointIndex]
  · exact Or.inr ⟨hp, if_neg hp⟩

/-- C9: from any state whose index is in range for the current route,
next() and prev() keep the index in [0, len-1] (and do not change the
route): prev() at index 0 and next() at index len-1 leave the state
untouched, and otherwise the index moves by exactly one. -/
theorem nav_clamped (dom : List String) (s : St)
    (h : s.currentPointIndex < s.currentRoute.points.length) :
    (step dom Op.next s).currentRoute = s.currentRoute ∧
    (step dom Op.prev s).currentRoute = s.currentRoute ∧
    (step dom Op.next s).currentPointIndex < s.currentRoute.points.length ∧
    (step dom Op.prev s).currentPointIndex < s.currentRoute.points.length ∧
    (s.currentPointIndex = 0 → step dom Op.prev s = s) ∧
    (s.currentPointIndex = s.currentRoute.points.length - 1 → step dom Op.next s = s) ∧
    (0 < s.currentPointIndex →
      (step dom Op.prev s).currentPointIndex = s.currentPointIndex - 1) ∧
    (s.currentPointIndex + 1 < s.currentRoute.points.length →
      (step dom Op.next s).currentPointIndex = s.currentPointIndex + 1) := by
  have hsn : step dom Op.next s = nextOp dom s := rfl
  have hsp : step dom Op.prev s = prevOp dom s := rfl
  rw [hsn, hsp]
  rcases nextOp_cases dom s with ⟨hn, hnr, hni⟩ | ⟨hn, hne⟩ <;>
    rcases prevOp_cases dom s with ⟨hp, hpr, hpi⟩ | ⟨hp, hpe⟩
  · exact ⟨hnr, hpr, by omega, by omega, fun h0 => absurd h0 (by omega),
      fun hl => absurd hl (by omega), fun _ => hpi, fun _ => hni⟩
  · exact ⟨hnr, by rw [hpe], by omega, by rw [hpe]; exact h, fun _ => hpe,
      fun hl => absurd hl (by omega), fun h0 => absurd h0 (by omega), fun _ => hni⟩
  · exact ⟨by rw [hne], hpr, by rw [hne]; exact h, by omega,
      fun h0 => absurd h0 (by omega),
      fun _ => hne, fun _ => hpi, fun hc => absurd hc (by omega)⟩
  · exact ⟨by rw [hne], by rw [hpe], by rw [hne]; exact h, by rw [hpe]; exact h,
      fun _ => hpe,
      fun _ => hne, fun h0 => absurd h0 (by omega), fun hc => absurd hc (by omega)⟩

/-- C9 witness: the initial state (Route Alpha, index 0): prev() is a
no-op there and next() advances to index 1, staying in range. -/
theorem nav_clamped_witness :
    step [] Op.prev (initState []) = initState [] ∧
    (step [] Op.next (initState [])).currentPointIndex <
      (initState []).currentRoute.points.length :=
  ⟨(nav_clamped [] (initState []) (by decide)).2.2.2.2.1 (by decide),
   (nav_clamped [] (initState []) (by decide)).2.2.1⟩

/-- C8: at most one checkpoint is ever active.  `activePointId` holds a
single id by construction; along any operation sequence from the initial
state at most one checkpoint hotspot carries the `selected` mark: any two
marked ids with non-empty ids coincide, every non-empty mark is exactly the
active id, and every catalog checkpoint id is non-empty — so the one mark
the program can strand (a `data-id=""` hotspot, skipped by the falsy
`if(activePointId)` guard) is not a checkpoint.  After
selectPointByClick(X) then selectPointByClick(Y) with X ≠ Y both on the
current (catalog) route, the active checkpoint is exactly Y: X is neither
the active id nor marked selected. -/
theorem highlight_exclusivity (dom : List String) (ops : List Op) (X Y : String) (s : St)
    (hInv : Inv dom s) (hr : s.currentRoute ∈ routes)
    (hX : X ∈ s.currentRoute.points.map Point.id)
    (hY : Y ∈ s.currentRoute.points.map Point.id)
    (hXY : X ≠ Y) :
    (∀ r ∈ routes, ∀ q ∈ r.points.map Point.id, q ≠ "") ∧
    (∀ a ∈ (run dom ops (initState dom)).domSelected,
      ∀ b ∈ (run dom ops (initState dom)).domSelected, a ≠ "" → b ≠ "" → a = b) ∧
    (∀ a ∈ (run dom ops (initState dom)).domSelected, a ≠ "" →
      (run dom ops (initState dom)).activePointId = some a) ∧
    (step dom (Op.click Y) (step dom (Op.click X) s)).activePointId = some Y ∧
    (step dom (Op.click Y) (step dom (Op.click X) s)).activePointId ≠ some X ∧
    X ∉ (step dom (Op.click Y) (step dom (Op.click X) s)).domSelected := by
  have hids : ∀ r ∈ routes, ∀ q ∈ r.points.map Point.id, q ≠ "" := by decide
  have hrun := inv_run dom ops (initState dom) (inv_initState dom)
  have hmark : ∀ a ∈ (run dom ops (initState dom)).domSelected, a ≠ "" →
      (run dom ops (initState dom)).activePointId = some a := by
    intro a ha ha0
    rcases hrun.2.1 a ha with he | he
    · exact absurd he ha0
    · exact he
  have c1 := clickPoint_inRoute dom X s hX
  have hY2 : Y ∈ (clickPoint dom X s).currentRoute.points.map Point.id := by
    rw [c1.2]; exact hY
  have c2 := clickPoint_inRoute dom Y (clickPoint dom X s) hY2
  have hstep2 : step dom (Op.click Y) (step dom (Op.click X) s) =
      clickPoint dom Y (clickPoint dom X s) := rfl
  have hinv2 : Inv dom (clickPoint dom Y (clickPoint dom X s)) :=
    inv_clickPoint dom Y _ (inv_clickPoint dom X s hInv)
  have hX0 : X ≠ "" := hids s.currentRoute hr X hX
  refine ⟨hids, ?_, hmark, ?_, ?_, ?_⟩
  · intro a ha b hb ha0 hb0
    have h1 := hmark a ha ha0
    have h2 := hmark b hb hb0
    rw [h1] at h2
    exact Option.some_inj.mp h2
  · rw [hstep2, c2.1]
  · rw [hstep2, c2.1]
    intro hcon
    exact hXY (Option.some_inj.mp hcon).symm
  · rw [hstep2]
    intro hmemX
    rcases hinv2.2.1 X hmemX with he | he
    · exact hX0 he
    · rw [c2.1] at he
      exact hXY (Option.some_inj.mp he).symm

/-- C8 witness: the hotspot page of Route Alpha, clicking P then Q from the
initial state — Q ends as the single active checkpoint — and the
at-most-one-marked-checkpoint property after a sample operation sequence. -/
theorem highlight_exclusivity_witness :
    (∀ a ∈ (run ["P", "Q", "R", "S", "T", "U", "S/P"] [Op.click "Q", Op.reset]
        (initState ["P", "Q", "R", "S", "T", "U", "S/P"])).domSelected,
      ∀ b ∈ (run ["P", "Q", "R", "S", "T", "U", "S/P"] [Op.click "Q", Op.reset]
        (initState ["P", "Q", "R", "S", "T", "U", "S/P"])).domSelected,
        a ≠ "" → b ≠ "" → a = b) ∧
    (step ["P", "Q", "R", "S", "T", "U", "S/P"] (Op.click "Q")
      (step ["P", "Q", "R", "S", "T", "U", "S/P"] (Op.click "P")
        (initState ["P", "Q", "R", "S", "T", "U", "S/P"]))).activePointId = some "Q" :=
  ⟨(highlight_exclusivity ["P", "Q", "R", "S", "T", "U", "S/P"] [Op.click "Q", Op.reset]
      "P" "Q" (initState ["P", "Q", "R", "S", "T", "U", "S/P"])
      (by decide) (by decide) (by decide) (by decide) (by decide)).2.1,
   (highlight_exclusivity ["P", "Q", "R", "S", "T", "U", "S/P"] [Op.click "Q", Op.reset]
      "P" "Q" (initState ["P", "Q", "R", "S", "T", "U", "S/P"])
      (by decide) (by decide) (by decide) (by decide) (by decide)).2.2.2.1⟩

/-- C1 counterexample: from the state (Route Alpha, index 2, P active,
points hidden), reset() leaves `currentPointIndex` at 2 — it is not forced
to 0 — and ends with `activePointId = some "R"` (the re-render re-activates
the current checkpoint), not cleared. -/
theorem reset_claim_cex :
    ¬ (((resetAll ["P", "Q", "R", "S", "T", "U", "S/P"]
          { currentRoute := routeA, currentPointIndex := 2, activePointId := some "P",
            pointsVisible := false, domSelected := ["P"] }).activePointId = none) ∧
       ((resetAll ["P", "Q", "R", "S", "T", "U", "S/P"]
          { currentRoute := routeA, currentPointIndex := 2, activePointId := some "P",
            pointsVisible := false, domSelected := ["P"] }).currentPointIndex = 0)) := by
  decide

/-- C1 amended: reset() sets `pointsVisible = true` and re-selects the same
route, but `currentPointIndex` is reset to 0 only when it is out of range
for the route (otherwise it is preserved), and `activePointId` does not end
up cleared: the transient clear is followed by the re-render, which
re-activates the checkpoint at the resulting index. -/
theorem reset_behavior (dom : List String) (s : St) (hr : s.currentRoute ∈ routes) :
    (resetAll dom s).pointsVisible = true ∧
    (resetAll dom s).currentRoute = s.currentRoute ∧
    (resetAll dom s).currentPointIndex =
      (if s.currentRoute.points.length ≤ s.currentPointIndex then 0
       else s.currentPointIndex) ∧
    (resetAll dom s).activePointId =
      (s.currentRoute.points[(resetAll dom s).currentPointIndex]?).map Point.id := by
  obtain ⟨hfind, hlen⟩ :
      routes.find? (fun rt => rt.id == s.currentRoute.id) = some s.currentRoute ∧
      s.currentRoute.points.length = 7 := by
    rcases route_mem_cases _ hr with he | he <;> rw [he] <;> exact ⟨by decide, by decide⟩
  unfold resetAll unhighlightAll setPointsVisibility showRoute
  simp only [hfind, Option.getD_some]
  rw [if_neg (by
    intro hcon
    have := List.isEmpty_iff.mp hcon
    rw [this] at hlen
    simp at hlen)]
  by_cases hi : s.currentRoute.points.length ≤ s.currentPointIndex
  · rw [if_pos hi]
    obtain ⟨p0, hp0⟩ : ∃ p0, s.currentRoute.points[0]? = some p0 := by
      refine ⟨s.currentRoute.points.get ⟨0, by omega⟩, ?_⟩
      rw [List.getElem?_eq_getElem (by omega)]
      rfl
    refine ⟨?_, ?_, ?_, ?_⟩
    · rw [renderPanel_pointsVisible]
    · rw [renderPanel_currentRoute]
    · rw [renderPanel_currentPointIndex]
      simp [hi]
    · rw [renderPanel_currentPointIndex]
      rw [renderPanel_activePointId dom _ p0 (by simpa using hp0)]
      rw [hp0]
      rfl
  · rw [if_neg hi]
    obtain ⟨p0, hp0⟩ : ∃ p0, s.currentRoute.points[s.currentPointIndex]? = some p0 := by
      refine ⟨s.currentRoute.points.get ⟨s.currentPointIndex, by omega⟩, ?_⟩
      rw [List.getElem?_eq_getElem (by omega)]
      rfl
    refine ⟨?_, ?_, ?_, ?_⟩
    · rw [renderPanel_pointsVisible]
    · rw [renderPanel_currentRoute]
    · rw [renderPanel_currentPointIndex]
      simp [hi]
    · rw [renderPanel_currentPointIndex]
      rw [renderPanel_activePointId dom _ p0 (by simpa using hp0)]
      rw [hp0]
      rfl

/-- C1 amended witness: resetting Route Bravo at in-range index 3 with
points hidden — visibility returns, the route survives, the index stays 3
and the checkpoint there (T) ends active. -/
theorem reset_behavior_witness :
    (resetAll [] { currentRoute := routeB, currentPointIndex := 3,
                   activePointId := none, pointsVisible := false,
                   domSelected := [] }).pointsVisible = true ∧
    (resetAll [] { currentRoute := routeB, currentPointIndex := 3,
                   activePointId := none, pointsVisible := false,
                   domSelected := [] }).currentPointIndex
        = (if routeB.points.length ≤ 3 then 0 else 3) :=
  ⟨(reset_behavior [] { currentRoute := routeB, currentPointIndex := 3,
                        activePointId := none, pointsVisible := false,
                        domSelected := [] } (by decide)).1,
   (reset_behavior [] { currentRoute := routeB, currentPointIndex := 3,
                        activePointId := none, pointsVisible := false,
                        domSelected := [] } (by decide)).2.2.1⟩

end MrProcedure
